import Mathlib

/-!
# Verification of the `ttlcache` package (joycn/gocache, src/cache.go)

Shallow embedding of the cache engine in `src/cache.go`.

Modelling conventions:
* `time.Time` is modelled as `Nat`: nanoseconds elapsed since Go's zero
  `time.Time` instant (January 1, year 1 UTC).  The zero value of
  `time.Time` is `0`; any realistic clock reading is positive.
  `t.After(u)` is the strict comparison `t > u`.
* `time.Duration` is modelled as `Int` (nanoseconds), so the negative
  `NoExpiration` sentinel is representable.
* `time.Now()` is passed in explicitly as a `now : Nat` parameter wherever
  the Go code reads the clock.
* `sync.Map` is modelled as an association list `List (String × Item α)`;
  the engine only ever stores one entry per key (sync.Map semantics), which
  appears below as a `Nodup` hypothesis on the key list where needed.
* The cached `interface{}` payload is a type parameter `α`.
* `Cache.stop` has type `chan bool` in Go; no code in the package ever
  executes `make(chan bool)`, so the field always holds its zero value
  `nil`.  We model the channel by the boolean `stopInitialized`
  (`false` = nil channel).  Go semantics: both send and receive on a nil
  channel block forever.
-/

namespace Ttlcache

/-- `Item` from src/cache.go: a cached value with its expiration data.
`expiration : Nat` embeds the `time.Time` field (`0` = Go's zero time). -/
structure Item (α : Type) where
  persistent : Bool
  object : α
  expiration : Nat
  deriving DecidableEq, Repr

/-- `Item.Expired` from src/cache.go: `false` if `Persistent`, otherwise
`time.Now().After(item.Expiration)`, i.e. `now > expiration`. -/
def Item.expired (item : Item α) (now : Nat) : Bool :=
  if item.persistent then false
  else decide (now > item.expiration)

/-- `NoExpiration` constant from src/cache.go (`time.Duration = -1`). -/
def NoExpiration : Int := -1

/-- `DefaultExpiration` constant from src/cache.go (`time.Duration = 0`). -/
def DefaultExpiration : Int := 0

/-- The association-list embedding of the `sync.Map` contents. -/
abbrev CMap (α : Type) := List (String × Item α)

/-- `sync.Map.Load`: look up the entry stored under key `k`. -/
def mapFind (k : String) : CMap α → Option (Item α)
  | [] => none
  | p :: rest => if p.1 = k then some p.2 else mapFind k rest

/-- `sync.Map.Store`: replace the entry for `k` in place, or append a new
one; a `sync.Map` holds at most one entry per key. -/
def mapStore (k : String) (it : Item α) : CMap α → CMap α
  | [] => [(k, it)]
  | p :: rest => if p.1 = k then (k, it) :: rest else p :: mapStore k it rest

/-- `sync.Map.Delete`: remove the entry stored under `k` (a no-op when the
key is absent). -/
def mapDelete (k : String) : CMap α → CMap α
  | [] => []
  | p :: rest => if p.1 = k then mapDelete k rest else p :: mapDelete k rest

/-- `Cache` from src/cache.go.  `stopInitialized` models the `stop chan
bool` field: the package never runs `make(chan bool)`, so in every cache the
package builds this is `false` (a nil channel). -/
structure Cache (α : Type) where
  defaultExpiration : Int
  map : CMap α
  stopInitialized : Bool
  deriving DecidableEq, Repr

/-- `Cache.Store` from src/cache.go.  If `d == DefaultExpiration (= 0)` the
cache's default is substituted; if the (resolved) duration is positive the
deadline is `time.Now().Add(d)`, otherwise the `Expiration` field keeps the
zero `time.Time` value (`0`).  The parameter name `persitent` keeps the
source's spelling. -/
def Cache.store (c : Cache α) (now : Nat) (k : String) (x : α)
    (d : Int) (persitent : Bool) : Cache α :=
  let d := if d = DefaultExpiration then c.defaultExpiration else d
  let e : Nat := if d > 0 then now + d.toNat else 0
  { c with map := mapStore k ⟨persitent, x, e⟩ c.map }

/-- `Cache.Load` from src/cache.go.  Returns the pair Go returns —
`(nil, false)` is `none`, `(item.Object, true)` is `some item.object` —
together with the cache state after the call (Go mutates in place).  A
present entry that is non-persistent with `time.Now().After(Expiration)` is
deleted and reported as not found. -/
def Cache.load (c : Cache α) (now : Nat) (k : String) :
    Option α × Cache α :=
  match mapFind k c.map with
  | none => (none, c)
  | some item =>
    if !item.persistent && decide (now > item.expiration) then
      (none, { c with map := mapDelete k c.map })
    else
      (some item.object, c)

/-- `Cache.Delete` from src/cache.go. -/
def Cache.delete (c : Cache α) (k : String) : Cache α :=
  { c with map := mapDelete k c.map }

/-- The traversal inside `Cache.Range` (src/cache.go): `sync.Map.Range`
calls the visitor on each stored `(key, *Item)` pair and stops as soon as
the visitor returns `false`.  The result is the trace of visited pairs. -/
def rangeVisits (f : String → Item α → Bool) : CMap α → CMap α
  | [] => []
  | p :: rest => if f p.1 p.2 then p :: rangeVisits f rest else [p]

/-- `Cache.Range` from src/cache.go: delegates to `sync.Map.Range`, which
only reads the map.  We return the visit trace together with the cache
state after the call. -/
def Cache.range (c : Cache α) (f : String → Item α → Bool) :
    CMap α × Cache α :=
  (rangeVisits f c.map, c)

/-- The traversal inside `Cache.DeleteExpired` (src/cache.go): `Range` over
the entries, deleting each one whose `Expired()` is true at the time of the
sweep, always continuing (`return true`). -/
def sweepList (now : Nat) : CMap α → CMap α
  | [] => []
  | p :: rest =>
    if p.2.expired now then sweepList now rest else p :: sweepList now rest

/-- `Cache.DeleteExpired` from src/cache.go. -/
def Cache.deleteExpired (c : Cache α) (now : Nat) : Cache α :=
  { c with map := sweepList now c.map }

/-- A `time.Ticker`, carrying its interval. -/
structure Ticker where
  interval : Int
  deriving DecidableEq, Repr

/-- `time.NewTicker` from the Go standard library: it panics when the
interval is not positive.  A panic is modelled as `Except.error` carrying
the runtime's panic message. -/
def newTicker (d : Int) : Except String Ticker :=
  if d ≤ 0 then Except.error "non-positive interval for NewTicker"
  else Except.ok ⟨d⟩

/-- The control state of the background sweep goroutine `Cache.gc`. -/
inductive GcState where
  | running
  | stopped
  deriving DecidableEq, Repr

/-- The two arms of `gc`'s `select`: a ticker tick (which runs
`DeleteExpired`) or a value received from the `stop` channel. -/
inductive GcEvent where
  | tick
  | stopSignal
  deriving DecidableEq, Repr

/-- One iteration of `gc`'s `select` loop (src/cache.go): a tick runs
`DeleteExpired` and loops; a stop signal stops the ticker and returns. -/
def gcStep (s : GcState) (e : GcEvent) : GcState :=
  match s, e with
  | .running, .tick => .running
  | .running, .stopSignal => .stopped
  | .stopped, _ => .stopped

/-- Which events Go's runtime can ever deliver to `gc`'s `select`: a tick
always; the `stop` arm only if the channel is non-nil, because a receive
from a nil channel blocks forever. -/
def deliverable (c : Cache α) : GcEvent → Bool
  | .tick => true
  | .stopSignal => c.stopInitialized

/-- `stopGC` from src/cache.go performs `c.stop <- true`.  The send
completes only when the channel is non-nil; a send on a nil channel blocks
the sender forever. -/
def stopGCCompletes (c : Cache α) : Bool :=
  c.stopInitialized

/-- The initialization of the `gc` goroutine (src/cache.go): its first
statement is `ticker := time.NewTicker(ci)`, which panics for `ci ≤ 0`. -/
def gcInit (ci : Int) : Except String Ticker :=
  newTicker ci

/-- `newCache` from src/cache.go: a provided default of `0` is rewritten to
`-1`; the `stop` field is left at its zero value (`nil` channel). -/
def newCache (de : Int) (m : CMap α) : Cache α :=
  { defaultExpiration := if de = 0 then -1 else de
    map := m
    stopInitialized := false }

/-- The observable result of `New` (src/cache.go): the constructed cache,
plus the spawned `gc` goroutine's initialization outcome when
`defaultExpiration > 0` (`none` when no goroutine is spawned). -/
structure NewResult (α : Type) where
  cache : Cache α
  gcTask : Option (Except String Ticker)

/-- `New` from src/cache.go: builds the cache over a fresh empty map and,
iff the original (pre-normalization) default expiration is strictly
positive, spawns `go c.gc(cleanupInterval)` and registers `stopGC` as the
finalizer. -/
def New (α : Type) (defaultExpiration cleanupInterval : Int) : NewResult α :=
  let c : Cache α := newCache defaultExpiration []
  if defaultExpiration > 0 then
    ⟨c, some (gcInit cleanupInterval)⟩
  else
    ⟨c, none⟩

/-- The list of keys of a map state. -/
def keys (m : CMap α) : List String :=
  m.map Prod.fst

/-- How many entries of `m` are stored under key `k`. -/
def keyCount (k : String) (m : CMap α) : Nat :=
  m.countP fun p => decide (p.1 = k)

/-! ### Helper lemmas about the map operations -/

theorem New_cache (α : Type) (de ci : Int) :
    (New α de ci).cache = newCache de [] := by
  simp only [New]
  split <;> rfl

theorem mapFind_mapStore_self (k : String) (it : Item α) :
    ∀ m : CMap α, mapFind k (mapStore k it m) = some it := by
  intro m
  induction m with
  | nil => simp [mapStore, mapFind]
  | cons q rest ih =>
    by_cases hq : q.1 = k
    · simp [mapStore, hq, mapFind]
    · simp [mapStore, hq, mapFind, ih]

theorem mem_keys_mapStore {k : String} {it : Item α} {x : String} :
    ∀ {m : CMap α}, x ∈ keys (mapStore k it m) → x = k ∨ x ∈ keys m := by
  intro m
  induction m with
  | nil => simp [mapStore, keys]
  | cons q rest ih =>
    by_cases hq : q.1 = k
    · intro hx
      simp only [mapStore, hq, if_pos, keys, List.map_cons, List.mem_cons] at hx ⊢
      rcases hx with hx | hx
      · exact Or.inl hx
      · exact Or.inr (Or.inr hx)
    · intro hx
      simp only [mapStore, hq, if_neg, not_false_iff, keys, List.map_cons,
        List.mem_cons] at hx ⊢
      rcases hx with hx | hx
      · exact Or.inr (Or.inl hx)
      · rcases ih hx with hx | hx
        · exact Or.inl hx
        · exact Or.inr (Or.inr hx)

theorem nodup_keys_mapStore (k : String) (it : Item α) :
    ∀ {m : CMap α}, (keys m).Nodup → (keys (mapStore k it m)).Nodup := by
  intro m
  induction m with
  | nil => intro _; simp [mapStore, keys]
  | cons q rest ih =>
    intro h
    simp only [keys, List.map_cons, List.nodup_cons] at h
    by_cases hq : q.1 = k
    · simp only [mapStore, hq, if_pos, keys, List.map_cons, List.nodup_cons]
      rw [hq] at h
      exact h
    · simp only [mapStore, hq, if_neg, not_false_iff, keys, List.map_cons,
        List.nodup_cons]
      refine ⟨?_, ih h.2⟩
      intro hmem
      rcases mem_keys_mapStore hmem with hx | hx
      · exact hq hx
      · exact h.1 hx

theorem keyCount_eq_zero_of_not_mem {k : String} {m : CMap α}
    (h : k ∉ keys m) : keyCount k m = 0 := by
  rw [keyCount, List.countP_eq_zero]
  intro p hp hpk
  exact h (List.mem_map.mpr ⟨p, hp, of_decide_eq_true hpk⟩)

theorem keyCount_mapStore (k : String) (it : Item α) :
    ∀ {m : CMap α}, (keys m).Nodup → keyCount k (mapStore k it m) = 1 := by
  intro m
  induction m with
  | nil => intro _; simp [mapStore, keyCount, List.countP_cons]
  | cons q rest ih =>
    intro h
    simp only [keys, List.map_cons, List.nodup_cons] at h
    by_cases hq : q.1 = k
    · simp only [mapStore, hq, if_pos, keyCount, List.countP_cons, decide_eq_true_eq]
      have hk : k ∉ keys rest := by rw [← hq]; exact h.1
      have h0 : keyCount k rest = 0 := keyCount_eq_zero_of_not_mem hk
      rw [keyCount] at h0
      simp [h0]
    · simp only [mapStore, hq, if_neg, not_false_iff, keyCount, List.countP_cons,
        decide_eq_true_eq]
      have h1 := ih h.2
      rw [keyCount] at h1
      simp [h1, hq]

theorem sweepList_eq_filter (now : Nat) :
    ∀ m : CMap α, sweepList now m = m.filter fun p => !(p.2.expired now) := by
  intro m
  induction m with
  | nil => rfl
  | cons q rest ih =>
    cases hq : q.2.expired now <;>
      simp [sweepList, List.filter_cons, hq, ih]

theorem rangeVisits_of_all_true {f : String → Item α → Bool} :
    ∀ {m : CMap α}, (∀ p ∈ m, f p.1 p.2 = true) → rangeVisits f m = m := by
  intro m
  induction m with
  | nil => intro _; rfl
  | cons q rest ih =>
    intro h
    have hq := h q (List.mem_cons_self q rest)
    simp only [rangeVisits, hq, if_pos, List.cons.injEq, true_and]
    exact ih fun p hp => h p (List.mem_cons_of_mem q hp)

theorem rangeVisits_early_stop {f : String → Item α → Bool} {p : String × Item α}
    {l₂ : CMap α} :
    ∀ {l₁ : CMap α}, (∀ q ∈ l₁, f q.1 q.2 = true) → f p.1 p.2 = false →
      rangeVisits f (l₁ ++ p :: l₂) = l₁ ++ [p] := by
  intro l₁
  induction l₁ with
  | nil => intro _ hp; simp [rangeVisits, hp]
  | cons q rest ih =>
    intro h hp
    have hq := h q (List.mem_cons_self q rest)
    simp only [List.cons_append, rangeVisits, hq, if_pos, List.cons.injEq, true_and]
    exact ih (fun r hr => h r (List.mem_cons_of_mem q hr)) hp

theorem foldl_gcStep_all_ticks :
    ∀ {events : List GcEvent}, (∀ e ∈ events, e = GcEvent.tick) →
      events.foldl gcStep GcState.running = GcState.running := by
  intro events
  induction events with
  | nil => intro _; rfl
  | cons e rest ih =>
    intro h
    have he := h e (List.mem_cons_self e rest)
    subst he
    exact ih fun e he => h e (List.mem_cons_of_mem _ he)

/-- A small cache state used to instantiate general theorems: at time `10`,
`"a"` is alive (deadline 20), `"b"` is expired (deadline 3), and `"p"` is
persistent. -/
def sampleCache : Cache Nat :=
  newCache 5 [("a", ⟨false, 1, 20⟩), ("b", ⟨false, 2, 3⟩), ("p", ⟨true, 3, 0⟩)]

/-! ### Claims -/

/-- C2: `Load(k)` returns `(nil, false)` when `k` is absent; returns the
stored value with `found = true` when `k` is present and the entry is
persistent or not expired at the instant of the call; and when `k` is
present, non-persistent, and expired at the instant of the call, `Load`
removes `k` from the map as a side effect and returns not-found. -/
theorem C2_load_contract (c : Cache α) (now : Nat) (k : String) :
    (mapFind k c.map = none → c.load now k = (none, c)) ∧
    (∀ it : Item α, mapFind k c.map = some it →
      (it.persistent = true ∨ it.expired now = false) →
      c.load now k = (some it.object, c)) ∧
    (∀ it : Item α, mapFind k c.map = some it →
      it.persistent = false → it.expired now = true →
      c.load now k = (none, { c with map := mapDelete k c.map })) := by
  refine ⟨?_, ?_, ?_⟩
  · intro h
    simp [Cache.load, h]
  · intro it hfind hcond
    have hexp : (!it.persistent && decide (now > it.expiration)) = false := by
      rcases hcond with hp | he
      · simp [hp]
      · cases hpers : it.persistent
        · rw [Item.expired, hpers] at he
          simp only [Bool.false_eq_true, if_neg, not_false_iff] at he
          simp [he]
        · simp
    simp [Cache.load, hfind, hexp]
  · intro it hfind hpers hexp
    rw [Item.expired, hpers] at hexp
    simp only [Bool.false_eq_true, if_neg, not_false_iff] at hexp
    simp [Cache.load, hfind, hpers, hexp]

/-- C2 witness: the three branches of `C2_load_contract` at `sampleCache`
and time `10`: `"z"` is absent, `"p"` is persistent, `"a"` is alive and
`"b"` is expired (and gets deleted). -/
theorem C2_load_contract_witness :
    sampleCache.load 10 "z" = (none, sampleCache) ∧
    sampleCache.load 10 "p" = (some 3, sampleCache) ∧
    sampleCache.load 10 "a" = (some 1, sampleCache) ∧
    sampleCache.load 10 "b"
      = (none, { sampleCache with map := mapDelete "b" sampleCache.map }) := by
  refine ⟨(C2_load_contract sampleCache 10 "z").1 (by decide), ?_, ?_, ?_⟩
  · exact (C2_load_contract sampleCache 10 "p").2.1 ⟨true, 3, 0⟩ (by decide)
      (Or.inl rfl)
  · exact (C2_load_contract sampleCache 10 "a").2.1 ⟨false, 1, 20⟩ (by decide)
      (Or.inr (by decide))
  · exact (C2_load_contract sampleCache 10 "b").2.2 ⟨false, 2, 3⟩ (by decide)
      rfl (by decide)

/-- C1 (refuted, code bug): an entry stored with the `NoExpiration`
sentinel (`-1`) and `persistent = false` is NOT immortal.  `Store` leaves
`Expiration` at the zero `time.Time`, and `time.Now().After(zero)` holds at
every positive instant, so the very next `Load` deletes the entry and
returns not-found.  The same happens when the TTL resolves to "never" via
the normalized default.  This contradicts the doc comments of `Store` and
`New` in src/cache.go ("the item never expires"). -/
theorem C1_noExpiration_entry_deleted_by_load :
    mapFind "k" ((New Nat 5 0).cache.store 100 "k" 42 NoExpiration false).map
      = some ⟨false, 42, 0⟩ ∧
    ((New Nat 5 0).cache.store 100 "k" 42 NoExpiration false).load 100 "k"
      = (none, (New Nat 5 0).cache) ∧
    ((New Nat 0 9).cache.store 100 "k" 42 DefaultExpiration false).load 100 "k"
      = (none, (New Nat 0 9).cache) := by
  refine ⟨by decide, by decide, by decide⟩

/-- C3 counterexample: a non-persistent entry whose expiration timestamp is
the zero/unset value is NOT treated as never-expiring: already at time `1`
it reports itself expired. -/
theorem C3_zero_timestamp_not_never_expiring :
    ¬ ((Item.mk false (0 : Nat) 0).expired 1 = false) := by decide

/-- C3 (amended): `Expired()` returns false unconditionally if `persistent`
is true, and otherwise returns true iff the current time is strictly after
`expiresAt`; consequently a non-persistent entry whose expiration timestamp
is the zero/unset value is treated as expired at every positive time, not
as never-expiring. -/
theorem C3_expired_contract (it : Item α) (now : Nat) :
    (it.persistent = true → it.expired now = false) ∧
    (it.persistent = false → (it.expired now = true ↔ now > it.expiration)) ∧
    (it.persistent = false → it.expiration = 0 → 0 < now →
      it.expired now = true) := by
  refine ⟨?_, ?_, ?_⟩
  · intro hp
    simp [Item.expired, hp]
  · intro hp
    simp [Item.expired, hp]
  · intro hp h0 hnow
    simp [Item.expired, hp, h0, hnow]

/-- C3 witness: `C3_expired_contract` at concrete items: a persistent item
never expires; a non-persistent one with deadline 5 is expired at 10; a
non-persistent one with the zero timestamp is expired at 3. -/
theorem C3_expired_contract_witness :
    (Item.mk true (0 : Nat) 5).expired 10 = false ∧
    ((Item.mk false (0 : Nat) 5).expired 10 = true ↔ 10 > 5) ∧
    (Item.mk false (0 : Nat) 0).expired 3 = true :=
  ⟨(C3_expired_contract (Item.mk true (0 : Nat) 5) 10).1 rfl,
   (C3_expired_contract (Item.mk false (0 : Nat) 5) 10).2.1 rfl,
   (C3_expired_contract (Item.mk false (0 : Nat) 0) 3).2.2 rfl rfl (by decide)⟩

/-- C4: `New` normalizes its default TTL: a `defaultExpiration` equal to
the `DefaultExpiration` sentinel (`0`) is redefined to the `NoExpiration`
sentinel (`-1`), so no cache produced by `New` ever has "use default" as
its own default. -/
theorem C4_new_normalizes_default (α : Type) (ci : Int) :
    (New α DefaultExpiration ci).cache.defaultExpiration = NoExpiration ∧
    ∀ de : Int, (New α de ci).cache.defaultExpiration ≠ DefaultExpiration := by
  constructor
  · rw [New_cache]
    rfl
  · intro de
    rw [New_cache]
    by_cases h : de = 0
    · subst h
      simp [newCache, DefaultExpiration]
    · simp [newCache, DefaultExpiration, h]

/-- C4 witness: `C4_new_normalizes_default` at concrete arguments. -/
theorem C4_new_normalizes_default_witness :
    (New Nat DefaultExpiration 7).cache.defaultExpiration = NoExpiration ∧
    (New Nat 9 7).cache.defaultExpiration ≠ DefaultExpiration :=
  ⟨(C4_new_normalizes_default Nat 7).1, (C4_new_normalizes_default Nat 7).2 9⟩

/-- C5: `DeleteExpired` (SweepNow) removes exactly the entries whose
`Expired()` is true at call time and no others; in particular a persistent
entry is never removed by a sweep. -/
theorem C5_sweep_exact (c : Cache α) (now : Nat) :
    (∀ p : String × Item α,
      p ∈ (c.deleteExpired now).map ↔ (p ∈ c.map ∧ p.2.expired now = false)) ∧
    (∀ p ∈ c.map, p.2.persistent = true → p ∈ (c.deleteExpired now).map) := by
  have hmem : ∀ p : String × Item α,
      p ∈ (c.deleteExpired now).map ↔ (p ∈ c.map ∧ p.2.expired now = false) := by
    intro p
    show p ∈ sweepList now c.map ↔ _
    rw [sweepList_eq_filter, List.mem_filter]
    simp
  refine ⟨hmem, ?_⟩
  intro p hp hpers
  refine (hmem p).mpr ⟨hp, ?_⟩
  simp [Item.expired, hpers]

/-- C5 witness: sweeping `sampleCache` at time `10` keeps the alive entry
`"a"` and the persistent entry `"p"` and removes the expired entry
`"b"`. -/
theorem C5_sweep_exact_witness :
    ("a", (⟨false, 1, 20⟩ : Item Nat)) ∈ (sampleCache.deleteExpired 10).map ∧
    ("b", (⟨false, 2, 3⟩ : Item Nat)) ∉ (sampleCache.deleteExpired 10).map ∧
    ("p", (⟨true, 3, 0⟩ : Item Nat)) ∈ (sampleCache.deleteExpired 10).map := by
  refine ⟨?_, ?_, ?_⟩
  · exact ((C5_sweep_exact sampleCache 10).1 _).mpr ⟨by decide, by decide⟩
  · intro hmem
    exact absurd (((C5_sweep_exact sampleCache 10).1 _).mp hmem).2 (by decide)
  · exact (C5_sweep_exact sampleCache 10).2 ("p", ⟨true, 3, 0⟩) (by decide) rfl

/-- C6 (refuted, code bug): constructing with a positive default TTL and a
non-positive sweep interval does NOT yield a harmlessly idle sweep task.
The spawned `gc` goroutine's first statement calls `time.NewTicker` with
the non-positive interval, which panics; with a positive interval the
ticker is created normally.  This contradicts `New`'s own doc comment,
which describes a cleanup interval "less than one" as merely disabling
automatic deletion. -/
theorem C6_gc_task_panics_on_nonpositive_interval :
    (New Nat 5 0).gcTask
      = some (Except.error "non-positive interval for NewTicker") ∧
    (New Nat 5 (-3)).gcTask
      = some (Except.error "non-positive interval for NewTicker") ∧
    (New Nat 5 7).gcTask = some (Except.ok ⟨7⟩) :=
  ⟨rfl, rfl, rfl⟩

/-- C7 (refuted, code bug): the running sweep task can never be stopped.
No code in the package ever executes `make(chan bool)`, so the `stop`
channel of every cache built by `New` is nil.  A receive from a nil
channel blocks forever, so the stop arm of `gc`'s select can never fire:
every trace of deliverable events leaves the task running, and the send
performed by the `stopGC` finalizer can never complete. -/
theorem C7_stop_signal_never_delivered (α : Type) (de ci : Int)
    (events : List GcEvent)
    (h : ∀ e ∈ events, deliverable (New α de ci).cache e = true) :
    events.foldl gcStep GcState.running = GcState.running ∧
    stopGCCompletes (New α de ci).cache = false := by
  have hstop : (New α de ci).cache.stopInitialized = false := by
    rw [New_cache]
    rfl
  constructor
  · refine foldl_gcStep_all_ticks ?_
    intro e he
    cases e with
    | tick => rfl
    | stopSignal =>
      have hd := h _ he
      rw [deliverable, hstop] at hd
      exact absurd hd (by decide)
  · rw [stopGCCompletes, hstop]

/-- C7 witness: `C7_stop_signal_never_delivered` on a cache built by
`New(5, 10)` with a concrete two-tick event trace. -/
theorem C7_stop_signal_never_delivered_witness :
    [GcEvent.tick, GcEvent.tick].foldl gcStep GcState.running
      = GcState.running ∧
    stopGCCompletes (New Nat 5 10).cache = false :=
  C7_stop_signal_never_delivered Nat 5 10 [GcEvent.tick, GcEvent.tick]
    (by decide)

/-- C8: `Store` unconditionally overwrites: after storing twice under the
same key the map holds exactly one entry for that key, and that entry
carries the value, the persistence flag, and the deadline computed from
the TTL of the latest `Store` (the second TTL resolved against the
cache's default, with a positive resolved duration giving `now + d` and
any other giving the zero timestamp). -/
theorem C8_store_overwrites (c : Cache α) (now₁ now₂ : Nat) (k : String)
    (x₁ x₂ : α) (d₁ d₂ : Int) (p₁ p₂ : Bool)
    (h : (keys c.map).Nodup) :
    keyCount k ((c.store now₁ k x₁ d₁ p₁).store now₂ k x₂ d₂ p₂).map = 1 ∧
    mapFind k ((c.store now₁ k x₁ d₁ p₁).store now₂ k x₂ d₂ p₂).map
      = some ⟨p₂, x₂,
          if (if d₂ = DefaultExpiration then c.defaultExpiration else d₂) > 0
          then now₂ +
            (if d₂ = DefaultExpiration then c.defaultExpiration else d₂).toNat
          else 0⟩ := by
  constructor
  · exact keyCount_mapStore k _ (nodup_keys_mapStore k _ h)
  · exact mapFind_mapStore_self k _ _

/-- C8 witness: two stores under `"k"` on an empty cache with default TTL
5: one entry remains, carrying the second store's value `2`, flag `true`,
and deadline `20 + 3`. -/
theorem C8_store_overwrites_witness :
    keyCount "k"
      (((newCache (α := Nat) 5 []).store 10 "k" 1 NoExpiration false).store
        20 "k" 2 3 true).map = 1 ∧
    mapFind "k"
      (((newCache (α := Nat) 5 []).store 10 "k" 1 NoExpiration false).store
        20 "k" 2 3 true).map = some ⟨true, 2, 23⟩ := by
  have h := C8_store_overwrites (newCache (α := Nat) 5 []) 10 20 "k" 1 2
    NoExpiration 3 false true (by simp [newCache, keys])
  exact ⟨h.1, by rw [h.2]; decide⟩

/-- C9: `Range` invokes the visitor once per currently-stored entry — with
no filtering by expiration and no deletion (the cache is unchanged) — and
stops early as soon as the visitor returns false. -/
theorem C9_range_contract (c : Cache α) (f : String → Item α → Bool) :
    (c.range f).2 = c ∧
    ((∀ p ∈ c.map, f p.1 p.2 = true) → (c.range f).1 = c.map) ∧
    (∀ (l₁ : CMap α) (p : String × Item α) (l₂ : CMap α),
      c.map = l₁ ++ p :: l₂ → (∀ q ∈ l₁, f q.1 q.2 = true) →
      f p.1 p.2 = false → (c.range f).1 = l₁ ++ [p]) := by
  refine ⟨rfl, ?_, ?_⟩
  · intro h
    exact rangeVisits_of_all_true h
  · intro l₁ p l₂ hsplit h₁ hp
    show rangeVisits f c.map = l₁ ++ [p]
    rw [hsplit]
    exact rangeVisits_early_stop h₁ hp

/-- C9 witness: an always-true visitor on `sampleCache` visits all three
entries, the logically expired `"b"` included, and leaves the cache
unchanged; a visitor that rejects `"b"` stops right after visiting it. -/
theorem C9_range_contract_witness :
    (sampleCache.range fun _ _ => true).2 = sampleCache ∧
    (sampleCache.range fun _ _ => true).1 = sampleCache.map ∧
    (sampleCache.range fun k _ => decide (k ≠ "b")).1
      = [("a", ⟨false, 1, 20⟩), ("b", ⟨false, 2, 3⟩)] := by
  refine ⟨(C9_range_contract sampleCache _).1,
    (C9_range_contract sampleCache _).2.1 (by decide), ?_⟩
  exact (C9_range_contract sampleCache _).2.2
    [("a", ⟨false, 1, 20⟩)] ("b", ⟨false, 2, 3⟩) [("p", ⟨true, 3, 0⟩)]
    (by decide) (by decide) (by decide)

/-- C10: whenever the duration of a `Store` call resolves (through the
use-default sentinel) to a non-positive value — any negative duration, not
only `-1` — the stored entry's `Expiration` is the zero timestamp, and all
such calls produce identical cache states. -/
theorem C10_nonpositive_resolved_duration (c : Cache α) (now : Nat)
    (k : String) (x : α) (p : Bool) (d₁ d₂ : Int)
    (h₁ : (if d₁ = DefaultExpiration then c.defaultExpiration else d₁) ≤ 0)
    (h₂ : (if d₂ = DefaultExpiration then c.defaultExpiration else d₂) ≤ 0) :
    c.store now k x d₁ p = { c with map := mapStore k ⟨p, x, 0⟩ c.map } ∧
    c.store now k x d₁ p = c.store now k x d₂ p := by
  have key : ∀ d : Int,
      (if d = DefaultExpiration then c.defaultExpiration else d) ≤ 0 →
      c.store now k x d p = { c with map := mapStore k ⟨p, x, 0⟩ c.map } := by
    intro d hd
    simp only [Cache.store]
    rw [if_neg (not_lt.mpr hd)]
  exact ⟨key d₁ h₁, (key d₁ h₁).trans (key d₂ h₂).symm⟩

/-- C10 witness: on a cache whose default is `-1`, storing with `-1` and
storing with the use-default sentinel `0` both leave `Expiration` at the
zero timestamp and produce the same cache. -/
theorem C10_nonpositive_resolved_duration_witness :
    (newCache (α := Nat) (-1) []).store 10 "k" 7 NoExpiration false
      = { newCache (α := Nat) (-1) [] with
          map := mapStore "k" ⟨false, 7, 0⟩ [] } ∧
    (newCache (α := Nat) (-1) []).store 10 "k" 7 NoExpiration false
      = (newCache (α := Nat) (-1) []).store 10 "k" 7 DefaultExpiration false :=
  C10_nonpositive_resolved_duration (newCache (α := Nat) (-1) []) 10 "k" 7
    false NoExpiration DefaultExpiration (by decide) (by decide)

end Ttlcache
